import Mathlib

/-!
Verification of the algorithmic core of metget-server.

The development shallowly embeds the C++ sources in Lean 4:

* `src/libraries/fasttri/src/InterpolationWeight.h`, `FaceInfo2.h`,
  `Triangulation.cpp` (the constrained-Delaunay interpolation engine);
* `libraries/libmetbuild/src/Grib.cpp` (coordinate normalization and the
  coverage-corner computation);
* `libraries/libmetbuild/src/KdtreePrivate.cpp` (the k-d tree build).

Doubles are modelled as exact rationals (ℚ); the IEEE quiet NaN produced by
`InterpolationWeight::interpolate` for an invalid weight is modelled as
`none : Option ℚ`.  CGAL point location, point insertion and domain marking
are library collaborators of the translated unit: their *outcomes* (the
locate type and located face, the face set created by insertion, the
in-domain map produced by `CGAL::mark_domain_in_triangulation`) appear as
explicit parameters, and every branch taken on those outcomes is translated
from the repository source.
-/

/-- A 2-D point with double (here: exact rational) coordinates, as
`CGAL::Point_2` is used by the sources. -/
structure Point where
  x : ℚ
  y : ℚ
deriving DecidableEq, Repr

/-- A finite triangulation vertex: its point together with its `info()`
attribute, the `unsigned` input index
(`CGAL::Triangulation_vertex_base_with_info_2<unsigned, ...>`). -/
structure Vertex where
  point : Point
  info : ℕ
deriving DecidableEq, Repr

/-- A finite face handle as `get_interpolation_weight` reads it: the three
vertices `face_handle->vertex(0..2)`. -/
structure Face where
  v0 : Vertex
  v1 : Vertex
  v2 : Vertex
deriving DecidableEq, Repr

/-- The CGAL locate types branched on in `Triangulation.cpp:206`. -/
inductive LocateType where
  | FACE
  | EDGE
  | VERTEX
  | OUTSIDE_CONVEX_HULL
  | OUTSIDE_AFFINE_HULL
deriving DecidableEq, Repr

/-- Embeds `FastTri::InterpolationWeight` (InterpolationWeight.h:15-69): vertex
index triple, weight triple, validity flag.  The default constructor
(`InterpolationWeight.h:20-21`) gives `⟨(0,0,0), (0,0,0), false⟩`; the
two-argument constructor sets `valid := true`. -/
structure InterpolationWeight where
  vertices : ℕ × ℕ × ℕ
  weights : ℚ × ℚ × ℚ
  valid : Bool
deriving DecidableEq, Repr

/-- Embeds `FastTri::Triangulation::get_interpolation_weight`
(Triangulation.cpp:195-244).  The CGAL `locate` call is external to the
translated unit, so its outcome — the locate type and the located face —
is a parameter; the branch on the locate type and the whole barycentric
computation are translated line by line from the source. -/
def get_interpolation_weight (locate_type : LocateType) (face_handle : Face)
    (point : Point) : InterpolationWeight :=
  match locate_type with
  | LocateType.FACE | LocateType.EDGE | LocateType.VERTEX =>
    let vertices := (face_handle.v0.info, face_handle.v1.info, face_handle.v2.info)
    let px0 := face_handle.v0.point.x
    let py0 := face_handle.v0.point.y
    let px1 := face_handle.v1.point.x
    let py1 := face_handle.v1.point.y
    let px2 := face_handle.v2.point.x
    let py2 := face_handle.v2.point.y
    let v0x := px2 - px0
    let v0y := py2 - py0
    let v1x := px1 - px0
    let v1y := py1 - py0
    let v2x := point.x - px0
    let v2y := point.y - py0
    let dot00 := v0x * v0x + v0y * v0y
    let dot01 := v0x * v1x + v0y * v1y
    let dot02 := v0x * v2x + v0y * v2y
    let dot11 := v1x * v1x + v1y * v1y
    let dot12 := v1x * v2x + v1y * v2y
    let inv_denom := 1 / (dot00 * dot11 - dot01 * dot01)
    let bary_u := (dot11 * dot02 - dot01 * dot12) * inv_denom
    let bary_v := (dot00 * dot12 - dot01 * dot02) * inv_denom
    let bary_w := 1 - bary_u - bary_v
    ⟨vertices, (bary_w, bary_v, bary_u), true⟩
  | _ => ⟨(0, 0, 0), (0, 0, 0), false⟩

/-- The barycentric triple `(u, v, w)` exactly as the specification words it
(spec §4.4, "Barycentric computation"): `a = V2 − V0`, `b = V1 − V0`,
`c = p − V0`, `u = (d11·d02 − d01·d12)/(d00·d11 − d01·d01)`,
`v = (d00·d12 − d01·d02)/(d00·d11 − d01·d01)`, `w = 1 − u − v`.  Declared
only to be compared against `get_interpolation_weight`. -/
def spec_barycentric (V0 V1 V2 p : Point) : ℚ × ℚ × ℚ :=
  let ax := V2.x - V0.x
  let ay := V2.y - V0.y
  let bx := V1.x - V0.x
  let bY := V1.y - V0.y
  let cx := p.x - V0.x
  let cy := p.y - V0.y
  let d00 := ax * ax + ay * ay
  let d01 := ax * bx + ay * bY
  let d02 := ax * cx + ay * cy
  let d11 := bx * bx + bY * bY
  let d12 := bx * cx + bY * cy
  let u := (d11 * d02 - d01 * d12) / (d00 * d11 - d01 * d01)
  let v := (d00 * d12 - d01 * d02) / (d00 * d11 - d01 * d01)
  (u, v, 1 - u - v)

/-- The per-weight body of `InterpolationWeight::interpolate`
(InterpolationWeight.h:52-61): quiet NaN (modelled `none`) for an invalid
weight, otherwise `w0·values[v0] + w1·values[v1] + w2·values[v2]`. -/
def interpolate_one (this_weight : InterpolationWeight) (values : List ℚ) :
    Option ℚ :=
  if this_weight.valid = false then none
  else
    some (this_weight.weights.1 * values.getD this_weight.vertices.1 0 +
      this_weight.weights.2.1 * values.getD this_weight.vertices.2.1 0 +
      this_weight.weights.2.2 * values.getD this_weight.vertices.2.2 0)

/-- Embeds `InterpolationWeight::interpolate` (InterpolationWeight.h:46-63): the
bulk transform over a weight vector. -/
def interpolate (weights : List InterpolationWeight) (values : List ℚ) :
    List (Option ℚ) :=
  weights.map fun this_weight => interpolate_one this_weight values

/-- A face is non-degenerate when its three vertices are not collinear,
i.e. the cross product of its two edge vectors is nonzero. -/
def Face.nondegenerate (f : Face) : Prop :=
  (f.v1.point.x - f.v0.point.x) * (f.v2.point.y - f.v0.point.y) -
    (f.v1.point.y - f.v0.point.y) * (f.v2.point.x - f.v0.point.x) ≠ 0

/-- C1: for every query point located inside the triangulation (locate type
FACE, EDGE, or VERTEX) in a face with vertices V0, V1, V2,
`get_interpolation_weight` returns a valid weight whose vertex triple is
`[V0.idx, V1.idx, V2.idx]` and whose weight triple equals `[w, v, u]` as
computed by the specification's dot-product formula, so that the first
weight multiplies V0, the second V1, the third V2. -/
theorem c1_weight_matches_spec_formula (fh : Face) (p : Point)
    (lt : LocateType)
    (h : lt = LocateType.FACE ∨ lt = LocateType.EDGE ∨ lt = LocateType.VERTEX) :
    get_interpolation_weight lt fh p =
      ⟨(fh.v0.info, fh.v1.info, fh.v2.info),
        ((spec_barycentric fh.v0.point fh.v1.point fh.v2.point p).2.2,
          (spec_barycentric fh.v0.point fh.v1.point fh.v2.point p).2.1,
          (spec_barycentric fh.v0.point fh.v1.point fh.v2.point p).1),
        true⟩ := by
  rcases h with h | h | h <;> subst h <;>
    simp only [get_interpolation_weight, spec_barycentric,
      InterpolationWeight.mk.injEq, Prod.mk.injEq, mul_one_div]

/-- Witness for C1 at the unit triangle and query point (1/4, 1/4),
located with type FACE. -/
theorem c1_weight_matches_spec_formula_witness :
    get_interpolation_weight LocateType.FACE
        ⟨⟨⟨0, 0⟩, 5⟩, ⟨⟨1, 0⟩, 7⟩, ⟨⟨0, 1⟩, 9⟩⟩ ⟨1/4, 1/4⟩ =
      ⟨(5, 7, 9),
        ((spec_barycentric ⟨0, 0⟩ ⟨1, 0⟩ ⟨0, 1⟩ ⟨1/4, 1/4⟩).2.2,
          (spec_barycentric ⟨0, 0⟩ ⟨1, 0⟩ ⟨0, 1⟩ ⟨1/4, 1/4⟩).2.1,
          (spec_barycentric ⟨0, 0⟩ ⟨1, 0⟩ ⟨0, 1⟩ ⟨1/4, 1/4⟩).1),
        true⟩ :=
  c1_weight_matches_spec_formula ⟨⟨⟨0, 0⟩, 5⟩, ⟨⟨1, 0⟩, 7⟩, ⟨⟨0, 1⟩, 9⟩⟩
    ⟨1/4, 1/4⟩ LocateType.FACE (Or.inl rfl)

/-- C3: every weight returned by `get_interpolation_weight` with
`valid = true` has weight components summing to 1 within 1e-10, for every
face and query point. -/
theorem c3_weight_sum (lt : LocateType) (fh : Face) (p : Point)
    (h : (get_interpolation_weight lt fh p).valid = true) :
    |(get_interpolation_weight lt fh p).weights.1 +
        (get_interpolation_weight lt fh p).weights.2.1 +
        (get_interpolation_weight lt fh p).weights.2.2 - 1| <
      1 / 10 ^ 10 := by
  cases lt
  case OUTSIDE_CONVEX_HULL => simp [get_interpolation_weight] at h
  case OUTSIDE_AFFINE_HULL => simp [get_interpolation_weight] at h
  all_goals
    simp only [get_interpolation_weight]
    ring_nf
    norm_num

/-- Witness for C3 at the unit triangle, query (1/4, 1/4), locate type
EDGE. -/
theorem c3_weight_sum_witness :
    |(get_interpolation_weight LocateType.EDGE
          ⟨⟨⟨0, 0⟩, 0⟩, ⟨⟨1, 0⟩, 1⟩, ⟨⟨0, 1⟩, 2⟩⟩ ⟨1/4, 1/4⟩).weights.1 +
        (get_interpolation_weight LocateType.EDGE
          ⟨⟨⟨0, 0⟩, 0⟩, ⟨⟨1, 0⟩, 1⟩, ⟨⟨0, 1⟩, 2⟩⟩ ⟨1/4, 1/4⟩).weights.2.1 +
        (get_interpolation_weight LocateType.EDGE
          ⟨⟨⟨0, 0⟩, 0⟩, ⟨⟨1, 0⟩, 1⟩, ⟨⟨0, 1⟩, 2⟩⟩ ⟨1/4, 1/4⟩).weights.2.2 - 1| <
      1 / 10 ^ 10 :=
  c3_weight_sum LocateType.EDGE ⟨⟨⟨0, 0⟩, 0⟩, ⟨⟨1, 0⟩, 1⟩, ⟨⟨0, 1⟩, 2⟩⟩
    ⟨1/4, 1/4⟩ (by decide)

/-- C7: a query whose locate result is OUTSIDE_CONVEX_HULL or
OUTSIDE_AFFINE_HULL yields (without throwing) the default-constructed
weight — `valid = false`, zero vertices, zero weights; bulk interpolation
yields NaN (`none`) at exactly that position; and a valid weight yields
`w0·values[v0] + w1·values[v1] + w2·values[v2]`. -/
theorem c7_outside_is_invalid_and_nan (fh : Face) (p : Point)
    (lt : LocateType)
    (h : lt = LocateType.OUTSIDE_CONVEX_HULL ∨
      lt = LocateType.OUTSIDE_AFFINE_HULL) :
    get_interpolation_weight lt fh p = ⟨(0, 0, 0), (0, 0, 0), false⟩ ∧
      (∀ pre post values,
        interpolate (pre ++ get_interpolation_weight lt fh p :: post) values =
          interpolate pre values ++ none :: interpolate post values) ∧
      (∀ (w : InterpolationWeight) (values : List ℚ), w.valid = true →
        interpolate_one w values =
          some (w.weights.1 * values.getD w.vertices.1 0 +
            w.weights.2.1 * values.getD w.vertices.2.1 0 +
            w.weights.2.2 * values.getD w.vertices.2.2 0)) := by
  have hw : get_interpolation_weight lt fh p = ⟨(0, 0, 0), (0, 0, 0), false⟩ := by
    rcases h with h | h <;> subst h <;> rfl
  refine ⟨hw, ?_, ?_⟩
  · intro pre post values
    simp [interpolate, hw, interpolate_one]
  · intro w values hv
    simp [interpolate_one, hv]

/-- Witness for C7: a concrete outside query on the unit triangle. -/
theorem c7_outside_is_invalid_and_nan_witness :
    get_interpolation_weight LocateType.OUTSIDE_CONVEX_HULL
        ⟨⟨⟨0, 0⟩, 0⟩, ⟨⟨1, 0⟩, 1⟩, ⟨⟨0, 1⟩, 2⟩⟩ ⟨10, 10⟩ =
      ⟨(0, 0, 0), (0, 0, 0), false⟩ ∧
      (∀ pre post values,
        interpolate (pre ++
            get_interpolation_weight LocateType.OUTSIDE_CONVEX_HULL
              ⟨⟨⟨0, 0⟩, 0⟩, ⟨⟨1, 0⟩, 1⟩, ⟨⟨0, 1⟩, 2⟩⟩ ⟨10, 10⟩ :: post) values =
          interpolate pre values ++ none :: interpolate post values) ∧
      (∀ (w : InterpolationWeight) (values : List ℚ), w.valid = true →
        interpolate_one w values =
          some (w.weights.1 * values.getD w.vertices.1 0 +
            w.weights.2.1 * values.getD w.vertices.2.1 0 +
            w.weights.2.2 * values.getD w.vertices.2.2 0)) :=
  c7_outside_is_invalid_and_nan ⟨⟨⟨0, 0⟩, 0⟩, ⟨⟨1, 0⟩, 1⟩, ⟨⟨0, 1⟩, 2⟩⟩
    ⟨10, 10⟩ LocateType.OUTSIDE_CONVEX_HULL (Or.inl rfl)

/-- C2: for an affine function `f(x, y) = A·x + B·y + C` sampled at the
vertices of a non-degenerate located face, applying the returned
interpolation weight to those values reproduces `f(p)` within 1e-10 (the
rational computation is in fact exact). -/
theorem c2_linear_exactness (A B C : ℚ) (fh : Face) (p : Point)
    (lt : LocateType)
    (hlt : lt = LocateType.FACE ∨ lt = LocateType.EDGE ∨
      lt = LocateType.VERTEX)
    (hnd : fh.nondegenerate) (values : List ℚ)
    (h0 : values.getD fh.v0.info 0 = A * fh.v0.point.x + B * fh.v0.point.y + C)
    (h1 : values.getD fh.v1.info 0 = A * fh.v1.point.x + B * fh.v1.point.y + C)
    (h2 : values.getD fh.v2.info 0 = A * fh.v2.point.x + B * fh.v2.point.y + C) :
    ∃ r, interpolate_one (get_interpolation_weight lt fh p) values = some r ∧
      |r - (A * p.x + B * p.y + C)| < 1 / 10 ^ 10 := by
  obtain ⟨⟨⟨x0, y0⟩, i0⟩, ⟨⟨x1, y1⟩, i1⟩, ⟨⟨x2, y2⟩, i2⟩⟩ := fh
  obtain ⟨px, py⟩ := p
  simp only [Face.nondegenerate] at hnd
  simp only at h0 h1 h2 hnd
  have hden :
      ((x2 - x0) * (x2 - x0) + (y2 - y0) * (y2 - y0)) *
          ((x1 - x0) * (x1 - x0) + (y1 - y0) * (y1 - y0)) -
        ((x2 - x0) * (x1 - x0) + (y2 - y0) * (y1 - y0)) *
          ((x2 - x0) * (x1 - x0) + (y2 - y0) * (y1 - y0)) ≠ 0 := by
    have hsq :
        ((x2 - x0) * (x2 - x0) + (y2 - y0) * (y2 - y0)) *
            ((x1 - x0) * (x1 - x0) + (y1 - y0) * (y1 - y0)) -
          ((x2 - x0) * (x1 - x0) + (y2 - y0) * (y1 - y0)) *
            ((x2 - x0) * (x1 - x0) + (y2 - y0) * (y1 - y0)) =
          ((x1 - x0) * (y2 - y0) - (y1 - y0) * (x2 - x0)) ^ 2 := by ring
    rw [hsq]
    exact pow_ne_zero 2 hnd
  rcases hlt with h | h | h <;> subst h <;>
    · refine ⟨_, rfl, ?_⟩
      simp only [get_interpolation_weight]
      simp only [h0, h1, h2]
      have hval :
          (1 -
              (((x1 - x0) * (x1 - x0) + (y1 - y0) * (y1 - y0)) *
                    ((x2 - x0) * (px - x0) + (y2 - y0) * (py - y0)) -
                  ((x2 - x0) * (x1 - x0) + (y2 - y0) * (y1 - y0)) *
                    ((x1 - x0) * (px - x0) + (y1 - y0) * (py - y0))) *
                (1 /
                  (((x2 - x0) * (x2 - x0) + (y2 - y0) * (y2 - y0)) *
                      ((x1 - x0) * (x1 - x0) + (y1 - y0) * (y1 - y0)) -
                    ((x2 - x0) * (x1 - x0) + (y2 - y0) * (y1 - y0)) *
                      ((x2 - x0) * (x1 - x0) + (y2 - y0) * (y1 - y0)))) -
              (((x2 - x0) * (x2 - x0) + (y2 - y0) * (y2 - y0)) *
                    ((x1 - x0) * (px - x0) + (y1 - y0) * (py - y0)) -
                  ((x2 - x0) * (x1 - x0) + (y2 - y0) * (y1 - y0)) *
                    ((x2 - x0) * (px - x0) + (y2 - y0) * (py - y0))) *
                (1 /
                  (((x2 - x0) * (x2 - x0) + (y2 - y0) * (y2 - y0)) *
                      ((x1 - x0) * (x1 - x0) + (y1 - y0) * (y1 - y0)) -
                    ((x2 - x0) * (x1 - x0) + (y2 - y0) * (y1 - y0)) *
                      ((x2 - x0) * (x1 - x0) + (y2 - y0) * (y1 - y0))))) *
              (A * x0 + B * y0 + C) +
            (((x2 - x0) * (x2 - x0) + (y2 - y0) * (y2 - y0)) *
                  ((x1 - x0) * (px - x0) + (y1 - y0) * (py - y0)) -
                ((x2 - x0) * (x1 - x0) + (y2 - y0) * (y1 - y0)) *
                  ((x2 - x0) * (px - x0) + (y2 - y0) * (py - y0))) *
              (1 /
                (((x2 - x0) * (x2 - x0) + (y2 - y0) * (y2 - y0)) *
                    ((x1 - x0) * (x1 - x0) + (y1 - y0) * (y1 - y0)) -
                  ((x2 - x0) * (x1 - x0) + (y2 - y0) * (y1 - y0)) *
                    ((x2 - x0) * (x1 - x0) + (y2 - y0) * (y1 - y0)))) *
              (A * x1 + B * y1 + C) +
            (((x1 - x0) * (x1 - x0) + (y1 - y0) * (y1 - y0)) *
                  ((x2 - x0) * (px - x0) + (y2 - y0) * (py - y0)) -
                ((x2 - x0) * (x1 - x0) + (y2 - y0) * (y1 - y0)) *
                  ((x1 - x0) * (px - x0) + (y1 - y0) * (py - y0))) *
              (1 /
                (((x2 - x0) * (x2 - x0) + (y2 - y0) * (y2 - y0)) *
                    ((x1 - x0) * (x1 - x0) + (y1 - y0) * (y1 - y0)) -
                  ((x2 - x0) * (x1 - x0) + (y2 - y0) * (y1 - y0)) *
                    ((x2 - x0) * (x1 - x0) + (y2 - y0) * (y1 - y0)))) *
              (A * x2 + B * y2 + C) =
            A * px + B * py + C := by
        field_simp
        ring
      rw [hval]
      norm_num

/-- Witness for C2: `f(x,y) = 2x + 3y + 1` on the unit triangle with
vertex indices 0, 1, 2 and values `[1, 3, 4]`, queried at (1/4, 1/4). -/
theorem c2_linear_exactness_witness :
    ∃ r, interpolate_one
        (get_interpolation_weight LocateType.FACE
          ⟨⟨⟨0, 0⟩, 0⟩, ⟨⟨1, 0⟩, 1⟩, ⟨⟨0, 1⟩, 2⟩⟩ ⟨1/4, 1/4⟩) [1, 3, 4] =
      some r ∧ |r - (2 * (1/4 : ℚ) + 3 * (1/4) + 1)| < 1 / 10 ^ 10 :=
  c2_linear_exactness 2 3 1 ⟨⟨⟨0, 0⟩, 0⟩, ⟨⟨1, 0⟩, 1⟩, ⟨⟨0, 1⟩, 2⟩⟩
    ⟨1/4, 1/4⟩ LocateType.FACE (Or.inl rfl) (by norm_num [Face.nondegenerate])
    [1, 3, 4] (by norm_num [List.getD]) (by norm_num [List.getD])
    (by norm_num [List.getD])

/-- Truncation of a rational toward zero, the rounding C's `std::fmod`
applies to the quotient. -/
def truncQ (x : ℚ) : ℤ := if 0 ≤ x then ⌊x⌋ else ⌈x⌉

/-- C `std::fmod` over exact rationals: `x − y·trunc(x/y)`, which keeps the
sign of the dividend `x`. -/
def fmodQ (x y : ℚ) : ℚ := x - y * truncQ (x / y)

/-- The longitude normalization in `Grib::readCoordinates`
(Grib.cpp:144-148): `v = std::fmod(v + 180.0, 360.0) - 180.0`. -/
def normalize_longitude (v : ℚ) : ℚ := fmodQ (v + 180) 360 - 180

/-- The longitude branch of `Grib::readCoordinates` (Grib.cpp:138-149): the
normalization is applied to every element exactly when `m_convention == 0`
(the value the constructor sets, Grib.cpp:22). -/
def readCoordinates_longitudes (lons : List ℚ) (m_convention : ℤ) : List ℚ :=
  if m_convention = 0 then lons.map normalize_longitude else lons

/-- Minimum of the values in an iterator range, as `*std::min_element`
yields it; the source dereferences the past-the-end iterator of an empty
range (undefined behaviour), modelled by the default 0. -/
def list_min (l : List ℚ) : ℚ :=
  match l with
  | [] => 0
  | a :: rest => rest.foldl min a

/-- Maximum of the values in an iterator range, as `*std::max_element`
yields it; 0 on the empty range (undefined behaviour in the source). -/
def list_max (l : List ℚ) : ℚ :=
  match l with
  | [] => 0
  | a :: rest => rest.foldl max a

/-- Embeds `Grib::findCorners` (Grib.cpp:162-180).  The first-row extrema scan the
iterator range `[begin, begin + m_ni - 1)` — that is the first `m_ni − 1`
elements — while the last-row extrema scan `[end - m_ni, end)`, the last
`m_ni` elements.  The corner vector is
`{(xll,yll), (xlr,ylr), (xtr,ytr), (xtl,ytl)}`. -/
def findCorners (m_longitude m_latitude : List ℚ) (m_ni : ℕ) : List Point :=
  let xtl := list_min (m_longitude.take (m_ni - 1))
  let xtr := list_max (m_longitude.take (m_ni - 1))
  let xll := list_min (m_longitude.drop (m_longitude.length - m_ni))
  let xlr := list_max (m_longitude.drop (m_longitude.length - m_ni))
  let ytl := list_min (m_latitude.take (m_ni - 1))
  let ytr := list_max (m_latitude.take (m_ni - 1))
  let yll := list_min (m_latitude.drop (m_latitude.length - m_ni))
  let ylr := list_max (m_latitude.drop (m_latitude.length - m_ni))
  [⟨xll, yll⟩, ⟨xlr, ylr⟩, ⟨xtr, ytr⟩, ⟨xtl, ytl⟩]

/-- Modelled from the spec (spec §3, "Corners / coverage polygon"): the four
corners computed from the min/max of the FIRST `Ni` and of the last `Ni`
longitudes (and likewise latitudes), in the source's corner order.  Declared
only to be compared against `findCorners`. -/
def findCorners_spec (m_longitude m_latitude : List ℚ) (m_ni : ℕ) :
    List Point :=
  let xtl := list_min (m_longitude.take m_ni)
  let xtr := list_max (m_longitude.take m_ni)
  let xll := list_min (m_longitude.drop (m_longitude.length - m_ni))
  let xlr := list_max (m_longitude.drop (m_longitude.length - m_ni))
  let ytl := list_min (m_latitude.take m_ni)
  let ytr := list_max (m_latitude.take m_ni)
  let yll := list_min (m_latitude.drop (m_latitude.length - m_ni))
  let ylr := list_max (m_latitude.drop (m_latitude.length - m_ni))
  [⟨xll, yll⟩, ⟨xlr, ylr⟩, ⟨xtr, ytr⟩, ⟨xtl, ytl⟩]

/-- C4 (code bug): on the 2×2 grid with longitudes `[0, 10, 0, 10]` and
latitudes `[1, 1, 0, 0]` (`Ni = 2`), the source's corner computation scans
only the first `Ni − 1 = 1` longitudes/latitudes (an off-by-one in the
iterator range `begin + m_ni - 1`), so it reports the top-right corner at
longitude 0, whereas the min/max over the full first `Ni` longitudes (the
claimed and evidently intended behaviour, matching the last-row scan) puts
it at longitude 10. -/
theorem c4_corner_off_by_one :
    findCorners [0, 10, 0, 10] [1, 1, 0, 0] 2 =
        [⟨0, 0⟩, ⟨10, 0⟩, ⟨0, 1⟩, ⟨0, 1⟩] ∧
      findCorners_spec [0, 10, 0, 10] [1, 1, 0, 0] 2 =
        [⟨0, 0⟩, ⟨10, 0⟩, ⟨10, 1⟩, ⟨0, 1⟩] ∧
      findCorners [0, 10, 0, 10] [1, 1, 0, 0] 2 ≠
        findCorners_spec [0, 10, 0, 10] [1, 1, 0, 0] 2 := by
  refine ⟨?_, ?_, ?_⟩ <;>
    norm_num [findCorners, findCorners_spec, list_min, list_max,
      List.take, List.drop, Point.mk.injEq]

/-- C5 counterexample: the input longitude −200 is stored unchanged as
−200, which does not lie in [−180, 180): C `fmod` truncates toward zero,
so for `v + 180 < 0` the normalized value keeps the negative sign and can
fall below −180. -/
theorem c5_normalization_counterexample :
    readCoordinates_longitudes [-200] 0 = [-200] ∧
      ¬((-180 : ℚ) ≤ -200) := by
  constructor
  · norm_num [readCoordinates_longitudes, normalize_longitude, fmodQ, truncQ]
    rw [show ⌈-(1/18 : ℚ)⌉ = 0 from by norm_num]
    norm_num
  · norm_num

/-- C5 (amended): the normalization computes
`fmod(v + 180, 360) − 180` with C `fmod` (truncation toward zero); for
every input longitude `v ≥ −180` — in particular every GRIB longitude,
which is non-negative — every stored value lies in the half-open interval
[−180, 180). -/
theorem c5_longitude_normalization_amended (lons : List ℚ)
    (h : ∀ v ∈ lons, (-180 : ℚ) ≤ v) :
    ∀ w ∈ readCoordinates_longitudes lons 0,
      (-180 : ℚ) ≤ w ∧ w < 180 := by
  intro w hw
  simp [readCoordinates_longitudes] at hw
  obtain ⟨v, hv, rfl⟩ := hw
  have hx : (0 : ℚ) ≤ (v + 180) / 360 := by
    have hv' := h v hv
    have hnum : (0 : ℚ) ≤ v + 180 := by linarith
    exact div_nonneg hnum (by norm_num)
  have ht : truncQ ((v + 180) / 360) = ⌊(v + 180) / 360⌋ := if_pos hx
  have hfl : (⌊(v + 180) / 360⌋ : ℚ) ≤ (v + 180) / 360 := Int.floor_le _
  have hfu : (v + 180) / 360 < ⌊(v + 180) / 360⌋ + 1 :=
    Int.lt_floor_add_one _
  unfold normalize_longitude fmodQ
  rw [ht]
  constructor <;> linarith

/-- Witness for C5 (amended) at the concrete input list `[370]`, whose
normalized form is `[10]`. -/
theorem c5_longitude_normalization_amended_witness :
    (-180 : ℚ) ≤ 10 ∧ (10 : ℚ) < 180 :=
  c5_longitude_normalization_amended [370] (by norm_num) 10
    (by norm_num [readCoordinates_longitudes, normalize_longitude, fmodQ,
      truncQ])

/-- Embeds `FastTri::FaceInfo2` (FaceInfo2.h:10-33): the per-face in-domain flag,
default-initialized to `false` (`m_in_domain{false}`). -/
structure FaceInfo2 where
  m_in_domain : Bool := false
deriving DecidableEq, Repr

/-- Embeds `FaceInfo2::is_in_domain` (FaceInfo2.h:18-20). -/
def FaceInfo2.is_in_domain (i : FaceInfo2) : Bool := i.m_in_domain

/-- Embeds `FaceInfo2::set_in_domain` (FaceInfo2.h:26-28). -/
def FaceInfo2.set_in_domain (_ : FaceInfo2) (in_domain : Bool) : FaceInfo2 :=
  ⟨in_domain⟩

/-- A finite face of the triangulation state: its vertex `info()` index
triple together with its `FaceInfo2`. -/
structure CDTFace where
  vertices : ℕ × ℕ × ℕ
  info : FaceInfo2
deriving DecidableEq, Repr

/-- The triangulation state the translated unit observes: the finite
vertices (each a point with its `info()` input index) and the finite
faces. -/
structure CDTState where
  finite_vertices : List (Point × ℕ)
  finite_faces : List CDTFace
deriving DecidableEq, Repr

/-- One step of CGAL's range `insert` with info, as used by
`add_mesh_points` (Triangulation.cpp:41-52): inserting a point already
present returns the existing vertex, whose `info()` is then overwritten
with the new index (`v->info() = info` in CGAL's range insert); a new
point becomes a new vertex carrying its index. -/
def insert_with_info (acc : List (Point × ℕ)) (p : Point) (idx : ℕ) :
    List (Point × ℕ) :=
  if acc.any fun q => q.1 = p then
    acc.map fun q => if q.1 = p then (p, idx) else q
  else acc ++ [(p, idx)]

/-- The insertion loop of `add_mesh_points`: each point is paired with its
position index `0..N` and inserted. -/
def add_mesh_points_from (acc : List (Point × ℕ)) (idx : ℕ) :
    List Point → List (Point × ℕ)
  | [] => acc
  | p :: rest => add_mesh_points_from (insert_with_info acc p idx) (idx + 1) rest

/-- Embeds `add_mesh_points` (Triangulation.cpp:41-52): inserts every input point
with its index as vertex info, yielding the finite-vertex set. -/
def add_mesh_points (points : List Point) : List (Point × ℕ) :=
  add_mesh_points_from [] 0 points

/-- The error raised by the triangulation unit: `std::invalid_argument`. -/
inductive TriError where
  | InvalidArgument
deriving DecidableEq, Repr

/-- Embeds `construct_points` (Triangulation.cpp:61-77): throws
`std::invalid_argument` when the x and y coordinate vectors differ in
size, otherwise pairs them into points. -/
def construct_points (points_x points_y : List ℚ) :
    Except TriError (List Point) :=
  if points_x.length ≠ points_y.length then
    Except.error TriError.InvalidArgument
  else Except.ok (List.zipWith Point.mk points_x points_y)

/-- Embeds `construct_triangulation` (Triangulation.cpp:86-98), also the
`Triangulation` constructor (Triangulation.cpp:110-112): throws
`std::invalid_argument` when fewer than 3 points are supplied, then builds
the points (which checks the size mismatch) and inserts them.  The face
set produced by CGAL's Delaunay insertion is a collaborator outcome and is
passed in as `cgal_faces`; each created face carries a default-constructed
`FaceInfo2` (no `set_in_domain` call happens anywhere on this path). -/
def construct_triangulation (x y : List ℚ)
    (cgal_faces : List (ℕ × ℕ × ℕ)) : Except TriError CDTState :=
  if x.length < 3 then Except.error TriError.InvalidArgument
  else
    match construct_points x y with
    | Except.error e => Except.error e
    | Except.ok pts =>
        Except.ok ⟨add_mesh_points pts, cgal_faces.map fun t => ⟨t, {}⟩⟩

/-- Embeds `mark_domain_status` (Triangulation.cpp:20-31): for every finite face,
look its handle up in the in-domain map filled by
`CGAL::mark_domain_in_triangulation` (a collaborator outcome, passed as
`in_domain_map`) and `set_in_domain(found && value)`. -/
def mark_domain_status (s : CDTState)
    (in_domain_map : ℕ × ℕ × ℕ → Option Bool) : CDTState :=
  ⟨s.finite_vertices,
    s.finite_faces.map fun fit =>
      ⟨fit.vertices,
        fit.info.set_in_domain
          (match in_domain_map fit.vertices with
            | some b => b
            | none => false)⟩⟩

/-- Embeds `Triangulation::apply_constraint_polygon(const t_Polygon &)`
(Triangulation.cpp:161-169): throws `std::invalid_argument` for a polygon
with fewer than 3 vertices; otherwise inserts the closed constraint (the
combinatorial effect of CGAL's `insert_constraint` is the collaborator
outcome `insert_constraint`) and re-runs `mark_domain_status`. -/
def apply_constraint_polygon
    (insert_constraint : CDTState → List Point → CDTState)
    (in_domain_map : ℕ × ℕ × ℕ → Option Bool) (s : CDTState)
    (poly : List Point) : Except TriError CDTState :=
  if poly.length < 3 then Except.error TriError.InvalidArgument
  else Except.ok (mark_domain_status (insert_constraint s poly) in_domain_map)

/-- Embeds `Triangulation::apply_constraint_polygon(region_x, region_y)`
(Triangulation.cpp:124-138): throws `std::invalid_argument` when the
coordinate vectors differ in size, then delegates to the polygon
overload. -/
def apply_constraint_polygon_xy
    (insert_constraint : CDTState → List Point → CDTState)
    (in_domain_map : ℕ × ℕ × ℕ → Option Bool) (s : CDTState)
    (region_x region_y : List ℚ) : Except TriError CDTState :=
  if region_x.length ≠ region_y.length then
    Except.error TriError.InvalidArgument
  else
    apply_constraint_polygon insert_constraint in_domain_map s
      (List.zipWith Point.mk region_x region_y)

/-- Embeds `Triangulation::get_triangles` (Triangulation.cpp:314-329): the
vertex-index triples of exactly the finite faces whose info is marked
in-domain. -/
def get_triangles (s : CDTState) : List (ℕ × ℕ × ℕ) :=
  s.finite_faces.filterMap fun fit =>
    if fit.info.is_in_domain then some fit.vertices else none

/-- C6: `construct_triangulation` raises `InvalidArgument` if and only if
the coordinate vectors differ in length or fewer than 3 points are
supplied; `apply_constraint_polygon` raises `InvalidArgument` if and only
if the polygon has fewer than 3 vertices (for the coordinate-vector
overload: also on mismatched x/y lengths); no other input raises. -/
theorem c6_invalid_argument_iff :
    (∀ (x y : List ℚ) (cgal_faces : List (ℕ × ℕ × ℕ)),
      construct_triangulation x y cgal_faces =
          Except.error TriError.InvalidArgument ↔
        (x.length ≠ y.length ∨ x.length < 3)) ∧
      (∀ ic m s (poly : List Point),
        apply_constraint_polygon ic m s poly =
            Except.error TriError.InvalidArgument ↔
          poly.length < 3) ∧
      (∀ ic m s (region_x region_y : List ℚ),
        apply_constraint_polygon_xy ic m s region_x region_y =
            Except.error TriError.InvalidArgument ↔
          (region_x.length ≠ region_y.length ∨ region_x.length < 3)) := by
  refine ⟨?_, ?_, ?_⟩
  · intro x y cgal_faces
    unfold construct_triangulation construct_points
    split_ifs with h1 h2 <;> simp <;> omega
  · intro ic m s poly
    unfold apply_constraint_polygon
    split_ifs with h1 <;> simp [h1]
  · intro ic m s region_x region_y
    unfold apply_constraint_polygon_xy apply_constraint_polygon
    split_ifs with h1 h2 <;> simp [*] <;>
      simp [List.length_zipWith] at h2 <;> omega

/-- C9: in a freshly constructed triangulation (any successful
`construct_triangulation`, before any `apply_constraint_polygon`), every
finite face carries the default `FaceInfo2` with in-domain `false`, so
`get_triangles` is empty; only after domain marking runs can
`get_triangles` be non-empty. -/
theorem c9_fresh_triangulation_has_no_triangles :
    (∀ (x y : List ℚ) (cgal_faces : List (ℕ × ℕ × ℕ)) (s : CDTState),
      construct_triangulation x y cgal_faces = Except.ok s →
        (∀ fit ∈ s.finite_faces, fit.info.is_in_domain = false) ∧
          get_triangles s = []) ∧
      (∃ (s : CDTState) (m : ℕ × ℕ × ℕ → Option Bool),
        get_triangles (mark_domain_status s m) ≠ []) := by
  constructor
  · intro x y cgal_faces s h
    unfold construct_triangulation at h
    split_ifs at h
    rcases hcp : construct_points x y with e | pts <;> rw [hcp] at h
    · cases h
    cases h
    have hall : ∀ fit ∈ (cgal_faces.map fun t => (⟨t, {}⟩ : CDTFace)),
        fit.info.is_in_domain = false := by
      intro fit hf
      rcases List.mem_map.mp hf with ⟨t, _, rfl⟩
      rfl
    refine ⟨hall, ?_⟩
    simp only [get_triangles]
    rw [List.filterMap_eq_nil_iff]
    intro fit hf
    rw [hall fit hf]
    rfl
  · exact ⟨⟨[], [⟨(0, 1, 2), {}⟩]⟩, fun _ => some true, by decide⟩

/-- Witness for C9: a concrete 3-point construction. -/
theorem c9_fresh_triangulation_has_no_triangles_witness :
    (∀ fit ∈ (⟨add_mesh_points [⟨0, 0⟩, ⟨1, 0⟩, ⟨0, 1⟩],
        [⟨(0, 1, 2), {}⟩]⟩ : CDTState).finite_faces,
      fit.info.is_in_domain = false) ∧
      get_triangles ⟨add_mesh_points [⟨0, 0⟩, ⟨1, 0⟩, ⟨0, 1⟩],
        [⟨(0, 1, 2), {}⟩]⟩ = [] :=
  c9_fresh_triangulation_has_no_triangles.1 [0, 1, 0] [0, 0, 1] [(0, 1, 2)]
    ⟨add_mesh_points [⟨0, 0⟩, ⟨1, 0⟩, ⟨0, 1⟩], [⟨(0, 1, 2), {}⟩]⟩ rfl

/-- The write loop of `Triangulation::get_vertices`
(Triangulation.cpp:344-347): `vertices[vit->info()] = point` for every
finite vertex.  A write past the end of the `std::vector` (an info index
at or beyond `num_vertices`) is undefined behaviour and is modelled as
`none`. -/
def get_vertices_loop (num_vertices : ℕ) (acc : Option (List Point)) :
    List (Point × ℕ) → Option (List Point)
  | [] => acc
  | (p, info) :: rest =>
      get_vertices_loop num_vertices
        (acc.bind fun vs =>
          if info < num_vertices then some (vs.set info p) else none) rest

/-- Embeds `Triangulation::get_vertices` (Triangulation.cpp:338-350): allocate a
vector sized to the number of finite vertices (default-constructed points
are the origin) and write each finite vertex's point at its info index. -/
def get_vertices (finite_vertices : List (Point × ℕ)) : Option (List Point) :=
  get_vertices_loop finite_vertices.length
    (some (List.replicate finite_vertices.length ⟨0, 0⟩)) finite_vertices

/-- Pairs each point with its running index, the shape the vertex list
takes when no input point is duplicated. -/
def withIdx (idx : ℕ) : List Point → List (Point × ℕ)
  | [] => []
  | p :: rest => (p, idx) :: withIdx (idx + 1) rest

theorem withIdx_length (idx : ℕ) (points : List Point) :
    (withIdx idx points).length = points.length := by
  induction points generalizing idx with
  | nil => rfl
  | cons p rest ih => simp [withIdx, ih]

theorem insert_with_info_any_iff (acc : List (Point × ℕ)) (p : Point) :
    (acc.any fun q => q.1 = p) = true ↔ p ∈ acc.map Prod.fst := by
  rw [List.any_eq_true]
  simp only [decide_eq_true_eq, List.mem_map]

theorem insert_with_info_of_not_mem (acc : List (Point × ℕ)) (p : Point)
    (i : ℕ) (h : p ∉ acc.map Prod.fst) :
    insert_with_info acc p i = acc ++ [(p, i)] := by
  unfold insert_with_info
  rw [if_neg]
  intro hany
  exact h ((insert_with_info_any_iff acc p).mp hany)

theorem add_mesh_points_from_nodup (points : List Point) :
    ∀ (acc : List (Point × ℕ)) (i : ℕ), points.Nodup →
      (∀ p ∈ points, p ∉ acc.map Prod.fst) →
      add_mesh_points_from acc i points = acc ++ withIdx i points := by
  induction points with
  | nil => intro acc i _ _; simp [add_mesh_points_from, withIdx]
  | cons p rest ih =>
      intro acc i hnd hdisj
      rw [List.nodup_cons] at hnd
      have hstep := insert_with_info_of_not_mem acc p i
        (hdisj p (List.mem_cons_self p rest))
      unfold add_mesh_points_from
      rw [hstep, ih (acc ++ [(p, i)]) (i + 1) hnd.2 ?_, withIdx]
      · simp
      · intro q hq
        simp only [List.map_append, List.mem_append]
        rintro (hacc | hsingle)
        · exact hdisj q (List.mem_cons_of_mem p hq) hacc
        · simp at hsingle
          exact hnd.1 (hsingle ▸ hq)

theorem take_set_succ {α : Type} :
    ∀ (l : List α) (k : ℕ) (a : α), k < l.length →
      (l.set k a).take (k + 1) = l.take k ++ [a] := by
  intro l
  induction l with
  | nil => intro k a h; simp at h
  | cons b rest ih =>
      intro k a h
      cases k with
      | zero => simp
      | succ k =>
          simp only [List.set_cons_succ, List.take_succ_cons]
          rw [ih k a (by simpa using h)]
          rfl

theorem drop_set_gt {α : Type} :
    ∀ (l : List α) (k j : ℕ) (a : α), k < j →
      (l.set k a).drop j = l.drop j := by
  intro l
  induction l with
  | nil => intro k j a _; simp
  | cons b rest ih =>
      intro k j a h
      cases k with
      | zero =>
          cases j with
          | zero => omega
          | succ j => simp
      | succ k =>
          cases j with
          | zero => omega
          | succ j =>
              simp only [List.set_cons_succ, List.drop_succ_cons]
              exact ih k j a (by omega)

theorem get_vertices_loop_writes (points : List Point) :
    ∀ (k : ℕ) (l : List Point) (n : ℕ), l.length = n →
      k + points.length ≤ n →
      get_vertices_loop n (some l) (withIdx k points) =
        some (l.take k ++ points ++ l.drop (k + points.length)) := by
  induction points with
  | nil =>
      intro k l n _ _
      simp [withIdx, get_vertices_loop, List.take_append_drop]
  | cons p rest ih =>
      intro k l n hlen hle
      have hk : k < n := by simp at hle; omega
      unfold withIdx get_vertices_loop
      rw [Option.some_bind, if_pos hk,
        ih (k + 1) (l.set k p) n (by simp [hlen]) (by simp at hle ⊢; omega)]
      rw [take_set_succ l k p (by omega), drop_set_gt l k (k + 1 + rest.length) p (by omega)]
      have harith : k + (p :: rest).length = k + 1 + rest.length := by
        simp; omega
      rw [harith]
      simp

theorem get_vertices_of_nodup (points : List Point) (hnd : points.Nodup) :
    get_vertices (add_mesh_points points) = some points := by
  have hshape : add_mesh_points points = withIdx 0 points := by
    have := add_mesh_points_from_nodup points [] 0 hnd (by simp)
    simpa [add_mesh_points] using this
  rw [get_vertices, hshape, withIdx_length]
  rw [get_vertices_loop_writes points 0 (List.replicate points.length ⟨0, 0⟩)
    points.length (by simp) (by simp)]
  simp

theorem get_vertices_loop_none (verts : List (Point × ℕ)) :
    ∀ n : ℕ, get_vertices_loop n none verts = none := by
  induction verts with
  | nil => intro n; rfl
  | cons e rest ih =>
      intro n
      obtain ⟨p, i⟩ := e
      unfold get_vertices_loop
      rw [Option.none_bind]
      exact ih n

theorem get_vertices_loop_oob (verts : List (Point × ℕ)) :
    ∀ (n : ℕ) (acc : Option (List Point)) (p : Point) (i : ℕ),
      (p, i) ∈ verts → n ≤ i → get_vertices_loop n acc verts = none := by
  induction verts with
  | nil => intro n acc p i h _; simp at h
  | cons e rest ih =>
      intro n acc p i hmem hni
      obtain ⟨q, j⟩ := e
      rcases List.mem_cons.mp hmem with heq | htail
      · injection heq with h1 h2
        subst h1
        subst h2
        unfold get_vertices_loop
        have hbind : (acc.bind fun vs =>
            if i < n then some (vs.set i p) else none) = none := by
          cases acc with
          | none => rfl
          | some vs => simp [Nat.not_lt.mpr hni]
        rw [hbind]
        exact get_vertices_loop_none rest n
      · exact ih n _ p i htail hni

theorem insert_with_info_mem_self (acc : List (Point × ℕ)) (p : Point)
    (i : ℕ) : (p, i) ∈ insert_with_info acc p i := by
  unfold insert_with_info
  by_cases h : (acc.any fun q => q.1 = p) = true
  · rw [if_pos h]
    rw [List.any_eq_true] at h
    obtain ⟨q, hq, hq1⟩ := h
    rw [decide_eq_true_eq] at hq1
    refine List.mem_map.mpr ⟨q, hq, ?_⟩
    rw [if_pos hq1]
  · rw [if_neg h]
    simp

theorem insert_with_info_keys (acc : List (Point × ℕ)) (p : Point) (i : ℕ)
    (r : Point) (h : r ∈ acc.map Prod.fst ∨ r = p) :
    r ∈ (insert_with_info acc p i).map Prod.fst := by
  unfold insert_with_info
  by_cases hany : (acc.any fun q => q.1 = p) = true
  · rw [if_pos hany]
    have hkeys : (acc.map fun q => if q.1 = p then (p, i) else q).map Prod.fst =
        acc.map Prod.fst := by
      rw [List.map_map]
      refine List.map_congr_left ?_
      intro a _
      by_cases ha : a.1 = p
      · simp [ha]
      · simp [ha]
    rw [hkeys]
    rcases h with h | rfl
    · exact h
    · exact (insert_with_info_any_iff acc r).mp hany
  · rw [if_neg hany]
    rw [List.map_append, List.mem_append]
    rcases h with h | rfl
    · exact Or.inl h
    · simp

theorem insert_with_info_length_le (acc : List (Point × ℕ)) (p : Point)
    (i : ℕ) : (insert_with_info acc p i).length ≤ acc.length + 1 := by
  unfold insert_with_info
  split_ifs <;> simp

theorem insert_with_info_length_of_mem (acc : List (Point × ℕ)) (p : Point)
    (i : ℕ) (h : p ∈ acc.map Prod.fst) :
    (insert_with_info acc p i).length = acc.length := by
  unfold insert_with_info
  rw [if_pos ((insert_with_info_any_iff acc p).mpr h)]
  simp

theorem add_mesh_points_from_length_le (points : List Point) :
    ∀ (acc : List (Point × ℕ)) (i : ℕ),
      (add_mesh_points_from acc i points).length ≤
        acc.length + points.length := by
  induction points with
  | nil => intro acc i; simp [add_mesh_points_from]
  | cons p rest ih =>
      intro acc i
      unfold add_mesh_points_from
      calc (add_mesh_points_from (insert_with_info acc p i) (i + 1)
              rest).length ≤
            (insert_with_info acc p i).length + rest.length := ih _ _
        _ ≤ acc.length + 1 + rest.length := by
            have := insert_with_info_length_le acc p i
            omega
        _ = acc.length + (p :: rest).length := by simp; omega

theorem add_mesh_points_from_length_lt (points : List Point) :
    ∀ (acc : List (Point × ℕ)) (i : ℕ),
      ((∃ p ∈ points, p ∈ acc.map Prod.fst) ∨ ¬points.Nodup) →
      (add_mesh_points_from acc i points).length <
        acc.length + points.length := by
  induction points with
  | nil =>
      intro acc i h
      rcases h with ⟨p, hp, _⟩ | h
      · simp at hp
      · exact absurd List.nodup_nil h
  | cons p rest ih =>
      intro acc i h
      unfold add_mesh_points_from
      have hsub : p ∈ acc.map Prod.fst ∨
          (∃ q ∈ rest, q ∈ acc.map Prod.fst) ∨ ¬rest.Nodup ∨ p ∈ rest := by
        rcases h with ⟨q, hq, hkey⟩ | hnd
        · rcases List.mem_cons.mp hq with rfl | hq'
          · exact Or.inl hkey
          · exact Or.inr (Or.inl ⟨q, hq', hkey⟩)
        · rw [List.nodup_cons] at hnd
          by_cases hp : p ∈ rest
          · exact Or.inr (Or.inr (Or.inr hp))
          · refine Or.inr (Or.inr (Or.inl ?_))
            intro hrest
            exact hnd ⟨hp, hrest⟩
      rcases hsub with hkey | hrest
      · have hlen := insert_with_info_length_of_mem acc p i hkey
        have hle := add_mesh_points_from_length_le rest
          (insert_with_info acc p i) (i + 1)
        rw [hlen] at hle
        simp only [List.length_cons]
        omega
      · have hstrict : (add_mesh_points_from (insert_with_info acc p i)
            (i + 1) rest).length <
            (insert_with_info acc p i).length + rest.length := by
          apply ih
          rcases hrest with ⟨q, hq, hkey⟩ | hnd | hp
          · exact Or.inl ⟨q, hq, insert_with_info_keys acc p i q (Or.inl hkey)⟩
          · exact Or.inr hnd
          · exact Or.inl ⟨p, hp, insert_with_info_keys acc p i p (Or.inr rfl)⟩
        have hle := insert_with_info_length_le acc p i
        simp only [List.length_cons]
        omega

theorem add_mesh_points_from_last_mem (points : List Point) :
    ∀ (acc : List (Point × ℕ)) (i : ℕ), points ≠ [] →
      ∃ p, (p, i + (points.length - 1)) ∈ add_mesh_points_from acc i points := by
  induction points with
  | nil => intro acc i h; exact absurd rfl h
  | cons p rest ih =>
      intro acc i _
      cases rest with
      | nil =>
          refine ⟨p, ?_⟩
          simp only [add_mesh_points_from, List.length_cons]
          exact insert_with_info_mem_self acc p i
      | cons q qs =>
          obtain ⟨r, hr⟩ := ih (insert_with_info acc p i) (i + 1)
            (by simp)
          refine ⟨r, ?_⟩
          unfold add_mesh_points_from
          have harith : (i + 1) + ((q :: qs).length - 1) =
              i + ((p :: q :: qs).length - 1) := by
            simp
            omega
          rw [harith] at hr
          exact hr

/-- C10: under the precondition that the input points are pairwise
distinct, `get_vertices` on the inserted vertex set returns exactly the
input points in input order (every info index is in bounds); with a
duplicated input point the vertex count falls below the largest stored
info index plus one, and the indexed write runs out of bounds (undefined
behaviour, modelled `none`). -/
theorem c10_get_vertices_roundtrip (points : List Point) :
    get_vertices (add_mesh_points points) =
      if points.Nodup then some points else none := by
  by_cases hnd : points.Nodup
  · rw [if_pos hnd]
    exact get_vertices_of_nodup points hnd
  · rw [if_neg hnd]
    have hne : points ≠ [] := by
      rintro rfl
      exact hnd List.nodup_nil
    have hlt : (add_mesh_points points).length < points.length := by
      have := add_mesh_points_from_length_lt points [] 0 (Or.inr hnd)
      simpa [add_mesh_points] using this
    obtain ⟨p, hp⟩ := add_mesh_points_from_last_mem points [] 0 hne
    rw [get_vertices]
    exact get_vertices_loop_oob (add_mesh_points points)
      (add_mesh_points points).length _ p (0 + (points.length - 1))
      (by simpa [add_mesh_points] using hp) (by omega)

/-- The nanoflann point cloud of `KdtreePrivate`
(KdtreePrivate.h:33-64): the packed copy of the input points. -/
structure PointCloud where
  pts : List (ℚ × ℚ)
deriving DecidableEq, Repr

/-- The state of `MetBuild::KdtreePrivate` (KdtreePrivate.h:12-75): the
initialization flag, the point cloud, and the built tree abstracted by the
leaf-capacity parameter it was constructed with (`none` when no tree has
been built). -/
structure KdtreePrivate where
  m_initialized : Bool
  m_cloud : PointCloud
  m_tree_leaf_max_size : Option ℕ
deriving DecidableEq, Repr

/-- The value `Kdtree::NoError` of the `_errors` enum (Kdtree.h:45). -/
def NoError : ℕ := 0

/-- The value `Kdtree::SizeMismatch` of the `_errors` enum (Kdtree.h:45). -/
def SizeMismatch : ℕ := 1

/-- Embeds `KdtreePrivate::build` (KdtreePrivate.cpp:23-36): returns 1
(`SizeMismatch`) immediately — before touching any member — when the
coordinate vectors differ in size; otherwise packs the points into the
cloud, builds the nanoflann tree with
`KDTreeSingleIndexAdaptorParams(10)` (leaf capacity 10), sets
`m_initialized`, and returns 0. -/
def KdtreePrivate.build (s : KdtreePrivate) (x y : List ℚ) :
    ℕ × KdtreePrivate :=
  if x.length ≠ y.length then (1, s)
  else (0, ⟨true, ⟨x.zip y⟩, some 10⟩)

/-- C8: building the spatial index with mismatched coordinate sizes fails
with `SizeMismatch` and leaves the state untouched (in particular an
uninitialized index stays uninitialized and the cloud is not modified);
with matching sizes it stores the packed copy of all points, builds the
tree with leaf capacity 10, marks the index initialized, and returns
success (`NoError`). -/
theorem c8_kdtree_build (s : KdtreePrivate) (x y : List ℚ) :
    (x.length ≠ y.length →
      KdtreePrivate.build s x y = (SizeMismatch, s) ∧
        (KdtreePrivate.build s x y).2.m_cloud = s.m_cloud ∧
        (KdtreePrivate.build s x y).2.m_initialized = s.m_initialized) ∧
      (x.length = y.length →
        KdtreePrivate.build s x y =
          (NoError, ⟨true, ⟨x.zip y⟩, some 10⟩)) := by
  constructor
  · intro h
    rw [KdtreePrivate.build, if_pos h]
    exact ⟨rfl, rfl, rfl⟩
  · intro h
    rw [KdtreePrivate.build, if_neg (by omega)]
    rfl

/-- Witness for C8: both branches at concrete inputs — a mismatched pair
`x = [1], y = []` against the fresh state, and a matching pair
`x = [1, 2], y = [3, 4]`. -/
theorem c8_kdtree_build_witness :
    (KdtreePrivate.build ⟨false, ⟨[]⟩, none⟩ [1] [] =
        (SizeMismatch, ⟨false, ⟨[]⟩, none⟩) ∧
      (KdtreePrivate.build ⟨false, ⟨[]⟩, none⟩ [1] []).2.m_cloud =
        (⟨false, (⟨[]⟩ : PointCloud), none⟩ : KdtreePrivate).m_cloud ∧
      (KdtreePrivate.build ⟨false, ⟨[]⟩, none⟩ [1] []).2.m_initialized =
        (⟨false, (⟨[]⟩ : PointCloud), none⟩ : KdtreePrivate).m_initialized) ∧
      KdtreePrivate.build ⟨false, ⟨[]⟩, none⟩ [1, 2] [3, 4] =
        (NoError, ⟨true, ⟨[1, 2].zip [3, 4]⟩, some 10⟩) :=
  ⟨(c8_kdtree_build ⟨false, ⟨[]⟩, none⟩ [1] []).1 (by decide),
    (c8_kdtree_build ⟨false, ⟨[]⟩, none⟩ [1, 2] [3, 4]).2 (by decide)⟩
